import Mathlib

/-
Verification of the retrieval-and-prompt-assembly pipeline:
embedding generation (src/services/ohmnic/embeddingService.js),
vector similarity search (src/services/ohmnic/vectorSearch.js), and
prompt assembly (LLMPromptBuilder in src/services/vonage-service.js),
shallowly embedded in Lean.  Machine floats are modelled as rationals;
the external pgvector distance operator and the upstream embedding
capability are parameters of the model.
-/

/-- One result of JavaScript includes on lowered strings: true when needle
occurs as a contiguous subsequence of hay. -/
def includesChars (needle : List Char) : List Char → Bool
  | [] => needle.isEmpty
  | h :: t => needle.isPrefixOf (h :: t) || includesChars needle t

namespace EmbeddingService

/-- A JavaScript Error value as the services throw and inspect it:
an optional numeric HTTP status and a message string. -/
structure EmbError where
  status : Option Nat
  message : String
deriving DecidableEq, Repr

/-- Static configuration: the embedding model dimension (3072). -/
def dimensions : Nat := 3072

/-- Static configuration: up to 3 attempts per upstream call. -/
def maxRetries : Nat := 3

/-- Static configuration: 100 texts per upstream batch request. -/
def batchSize : Nat := 100

/-- HTTP statuses the service retries on. -/
def retryableStatuses : List Nat := [429, 500, 502, 503, 504]

/-- Message substrings the service retries on. -/
def retryableMessages : List String := ["timeout", "network", "ECONNRESET", "ETIMEDOUT"]

/-- Case-insensitive substring test, as in message.toLowerCase().includes(m.toLowerCase()). -/
def msgContains (message m : String) : Bool :=
  includesChars (m.map Char.toLower).data (message.map Char.toLower).data

/-- isRetryableError from the source: a truthy status contained in the retryable
status list answers true at once; otherwise, when the message is truthy
(non-empty), a case-insensitive substring match against the retryable message
list decides; otherwise false. -/
def isRetryableError (e : EmbError) : Bool :=
  if (match e.status with
      | some s => decide (s ≠ 0) && retryableStatuses.contains s
      | none => false) then
    true
  else if e.message ≠ "" then
    retryableMessages.any (fun m => msgContains e.message m)
  else
    false

/-- Outcome of one retryWithBackoff run: the returned or thrown value
(none models the JavaScript undefined fallthrough when the loop never runs),
the number of attempts made, and the backoff delays (in milliseconds) slept
between attempts. -/
structure RetryRun (α : Type) where
  result : Option (Except EmbError α)
  attempts : Nat
  delays : List Nat

/-- Loop body of retryWithBackoff.  fuel is the number of remaining loop
iterations (retries - i), i the 0-based attempt counter, ds the delays slept
so far.  Attempt i evaluates f i; a failure that is retryable and not the
last allowed attempt sleeps 2^i * 1000 ms and continues. -/
def retryGo (isR : EmbError → Bool) (f : Nat → Except EmbError α) (retries : Nat) :
    Nat → Nat → List Nat → RetryRun α
  | 0, i, ds => ⟨none, i, ds⟩
  | fuel + 1, i, ds =>
    match f i with
    | .ok v => ⟨some (.ok v), i + 1, ds⟩
    | .error e =>
      if !isR e || i == retries - 1 then ⟨some (.error e), i + 1, ds⟩
      else retryGo isR f retries fuel (i + 1) (ds ++ [2 ^ i * 1000])

/-- retryWithBackoff from the source, with the attempt outcomes supplied as
the function f from attempt index to upstream outcome. -/
def retryWithBackoff (isR : EmbError → Bool) (f : Nat → Except EmbError α)
    (retries : Nat) : RetryRun α :=
  retryGo isR f retries retries 0 []

/-- generateEmbedding from the source.  f gives the upstream outcome of each
attempt; a successful upstream response is its data array, one embedding per
input.  Empty input is rejected before any upstream call; a wrong-length
vector is rejected after the call; every error thrown inside the try block is
rewrapped with the Failed-to-generate prefix (dropping any status, as the
JavaScript new Error does). -/
def generateEmbedding (text : String) (f : Nat → Except EmbError (List (List ℚ))) :
    Except EmbError (List ℚ) :=
  if text = "" then
    .error ⟨none, "Invalid text input for embedding generation"⟩
  else
    match (retryWithBackoff isRetryableError f maxRetries).result with
    | some (.ok data) =>
      match data with
      | [] =>
        .error ⟨none, "Failed to generate embedding: response.data[0] is undefined"⟩
      | emb :: _ =>
        if emb.length ≠ dimensions then
          .error ⟨none, "Failed to generate embedding: Invalid embedding dimensions: expected "
            ++ toString dimensions ++ ", got " ++ toString emb.length⟩
        else
          .ok emb
    | some (.error e) =>
      .error ⟨none, "Failed to generate embedding: " ++ e.message⟩
    | none =>
      .error ⟨none, "Failed to generate embedding: response is undefined"⟩

/-- createBatches from the source: consecutive slices of size bs.  The bs = 0
guard is never reached by the service (its batch size is 100); it stands in
for the JavaScript loop that would never terminate there. -/
def createBatches : List α → Nat → List (List α)
  | [], _ => []
  | _ :: _, 0 => []
  | x :: xs, bs + 1 =>
    (x :: xs).take (bs + 1) :: createBatches ((x :: xs).drop (bs + 1)) (bs + 1)
termination_by l _ => l.length
decreasing_by
  simp only [List.length_drop, List.length_cons]
  omega

/-- Outcome of one generateBatchEmbeddings run: the returned or thrown value
and the upstream calls made, one entry (the batch of texts sent) per upstream
request. -/
structure BatchRun where
  result : Except EmbError (List (List ℚ))
  calls : List (List String)

/-- Loop body of generateBatchEmbeddings: batch i is embedded with its own
retryWithBackoff run (up i gives that run's attempt outcomes); a failure after
retries throws for the whole operation, naming the 1-based failed batch index,
and the embeddings accumulated from earlier batches are abandoned. -/
def batchGo (up : Nat → Nat → Except EmbError (List (List ℚ))) :
    Nat → List (List String) → List (List ℚ) → List (List String) → BatchRun
  | _, [], acc, calls => ⟨.ok acc, calls⟩
  | i, b :: bs, acc, calls =>
    match (retryWithBackoff isRetryableError (up i) maxRetries).result with
    | some (.ok data) => batchGo up (i + 1) bs (acc ++ data) (calls ++ [b])
    | some (.error e) =>
      ⟨.error ⟨none, "Failed to generate embeddings for batch " ++ toString (i + 1)
        ++ ": " ++ e.message⟩, calls ++ [b]⟩
    | none =>
      ⟨.error ⟨none, "Failed to generate embeddings for batch " ++ toString (i + 1)
        ++ ": response is undefined"⟩, calls ++ [b]⟩

/-- generateBatchEmbeddings from the source: reject an empty input, split the
texts into batches of batchSize, then embed the batches strictly in order. -/
def generateBatchEmbeddings (texts : List String)
    (up : Nat → Nat → Except EmbError (List (List ℚ))) : BatchRun :=
  if texts = [] then
    ⟨.error ⟨none, "Invalid texts array for batch embedding generation"⟩, []⟩
  else
    batchGo up 0 (createBatches texts batchSize) [] []

end EmbeddingService

/-- Insertion of an element into a sorted list, placing it before the first
element it compares less-or-equal to; with a total preorder this realises a
stable sort. -/
def insertSorted (le : α → α → Bool) (a : α) : List α → List α
  | [] => [a]
  | b :: bs => if le a b then a :: b :: bs else b :: insertSorted le a bs

/-- Stable insertion sort.  The SQL ORDER BY of the search query names no
secondary sort key, so the database may return equal-key rows in any order;
the model determinises this as a stable sort over the store's row order. -/
def sortBy (le : α → α → Bool) : List α → List α
  | [] => []
  | a :: as => insertSorted le a (sortBy le as)

namespace VectorSearch

open EmbeddingService

/-- Static configuration: default topK. -/
def defaultTopK : Nat := 5

/-- Static configuration: default minimum cosine similarity. -/
def similarityThreshold : ℚ := 1 / 10

/-- One row of the joined store relation the search query reads:
an ohmnic_document_chunks row joined with its ohmnic_documents row.
A chunk whose document the join does not find never reaches the query,
so the model stores joined rows directly. -/
structure StoreRow where
  id : Nat
  documentId : Nat
  chunkIndex : Nat
  chunkText : String
  tokenCount : Nat
  metadata : String
  filename : String
  fileType : String
  uploadDate : String
  tags : List String
  tenantId : String
  embedding : Option (List ℚ)

/-- Document attribution carried on each similarity result. -/
structure SourceInfo where
  filename : String
  fileType : String
  uploadDate : String
  tags : List String

/-- One similarity result as the search returns it. -/
structure SearchResult where
  chunkId : Nat
  documentId : Nat
  chunkIndex : Nat
  text : String
  tokenCount : Nat
  metadata : String
  source : SourceInfo
  similarity : ℚ

/-- JavaScript toFixed rounding of q to an integer: round half away from
zero (toFixed negates a negative argument, rounds half up, then restores
the sign). -/
def jsRound (q : ℚ) : ℤ :=
  if q < 0 then -round (-q) else round q

/-- The similarity field of a row: parseFloat(row.similarity.toFixed(4)). -/
def toFixed4 (q : ℚ) : ℚ :=
  (jsRound (q * 10000) : ℚ) / 10000

/-- The WHERE clause's tenant filter, c.tenant_id = $2.  A missing tenant
binds SQL NULL, and NULL = anything selects no row. -/
def tenantMatch (rowTenant : String) : Option String → Bool
  | none => false
  | some t => rowTenant == t

/-- The optional document filter: c.document_id = ANY($n) is appended only
when documentIds is an array with at least one element. -/
def docMatch (docId : Nat) : Option (List Nat) → Bool
  | none => true
  | some ids => if ids.isEmpty then true else ids.contains docId

/-- The pgvector cosine distance of a row's embedding from the query vector.
The distance operator itself is external to the repository, so it is a
parameter dist of the model. -/
def rowKey (dist : List ℚ → List ℚ → ℚ) (qEmb : List ℚ) (c : StoreRow) : ℚ :=
  dist (c.embedding.getD []) qEmb

/-- The WHERE clause of the search query: tenant scope, non-null embedding,
the optional document filter, and similarity (1 - distance) at least the
threshold. -/
def candidateFilter (dist : List ℚ → List ℚ → ℚ) (qEmb : List ℚ)
    (tid : Option String) (docIds : Option (List Nat)) (threshold : ℚ)
    (c : StoreRow) : Bool :=
  match c.embedding with
  | none => false
  | some e =>
    tenantMatch c.tenantId tid && docMatch c.documentId docIds
      && decide (threshold ≤ 1 - dist e qEmb)

/-- The rows satisfying the WHERE clause, ordered by distance ascending
(ORDER BY c.embedding <=> $1), before LIMIT is applied. -/
def rankedCandidates (dist : List ℚ → List ℚ → ℚ) (store : List StoreRow)
    (qEmb : List ℚ) (tid : Option String) (threshold : ℚ)
    (docIds : Option (List Nat)) : List StoreRow :=
  sortBy (fun a b => decide (rowKey dist qEmb a ≤ rowKey dist qEmb b))
    (store.filter (candidateFilter dist qEmb tid docIds threshold))

/-- The row-to-result mapping of vectorSimilaritySearch, reporting the
similarity rounded to 4 decimal digits. -/
def toResult (dist : List ℚ → List ℚ → ℚ) (qEmb : List ℚ) (c : StoreRow) :
    SearchResult :=
  { chunkId := c.id
    documentId := c.documentId
    chunkIndex := c.chunkIndex
    text := c.chunkText
    tokenCount := c.tokenCount
    metadata := c.metadata
    source := ⟨c.filename, c.fileType, c.uploadDate, c.tags⟩
    similarity := toFixed4 (1 - rowKey dist qEmb c) }

/-- vectorSimilaritySearch from the source: the filtered rows, ordered by
distance, limited to topK, mapped to result records. -/
def vectorSimilaritySearch (dist : List ℚ → List ℚ → ℚ) (store : List StoreRow)
    (qEmb : List ℚ) (tid : Option String) (topK : Nat) (threshold : ℚ)
    (docIds : Option (List Nat)) : List SearchResult :=
  ((rankedCandidates dist store qEmb tid threshold docIds).take topK).map
    (toResult dist qEmb)

/-- The caller-visible search options bag; a missing field takes the
constructor default of the service. -/
structure SearchOptions where
  topK : Option Nat
  similarityThreshold : Option ℚ
  documentIds : Option (Option (List Nat))

/-- The options bag with every field absent. -/
def SearchOptions.empty : SearchOptions := ⟨none, none, none⟩

/-- The search response value: {results, query, count, responseTimeMs}. -/
structure SearchResponse where
  results : List SearchResult
  query : String
  count : Nat
  responseTimeMs : Nat

/-- The side effects search can attempt, in order of occurrence. -/
inductive Effect where
  | embedUpstream
  | storeQuery
  | logInsert
deriving DecidableEq, Repr

/-- The raw INSERT into ohmnic_query_log; whether it succeeds is the
environment's logOk flag. -/
def logQueryRaw (logOk : Bool) : Except String Unit :=
  if logOk then .ok () else .error "insert into ohmnic_query_log failed"

/-- logQuery from the source: the insert failure is caught inside logQuery
(non-critical error, do not fail the search) and only a diagnostic is
emitted, so logQuery always returns unit. -/
def logQuery (logOk : Bool) : Unit :=
  match logQueryRaw logOk with
  | .ok _ => ()
  | .error _ => ()

/-- search from the source.  dist and store model the database, f the
upstream embedding attempts for the query text, startTime and endTime the
two Date.now readings, logOk whether the analytics insert would succeed.
Besides the returned or thrown value, the run records which side effects
were attempted. -/
def search (dist : List ℚ → List ℚ → ℚ) (store : List StoreRow)
    (f : Nat → Except EmbError (List (List ℚ))) (startTime endTime : Nat)
    (logOk : Bool) (query : String) (tenantId : Option String)
    (opts : SearchOptions) : Except String SearchResponse × List Effect :=
  let topK := opts.topK.getD defaultTopK
  let threshold := opts.similarityThreshold.getD similarityThreshold
  let docIds := (opts.documentIds.getD none)
  match generateEmbedding query f with
  | .error e =>
    (.error ("Semantic search failed: " ++ e.message),
     if query = "" then [] else [Effect.embedUpstream])
  | .ok qEmb =>
    let results := vectorSimilaritySearch dist store qEmb tenantId topK threshold docIds
    let responseTime := endTime - startTime
    let _ := logQuery logOk
    (.ok { results := results, query := query, count := results.length,
           responseTimeMs := responseTime },
     [Effect.embedUpstream, Effect.storeQuery, Effect.logInsert])

end VectorSearch

namespace LLMPromptBuilder

open VectorSearch

/-- The cached LLM system prompt (compliance preamble).  getSystemPrompt
computes this text once and then always returns the cached value, so the
model is a constant. -/
def systemPrompt : String := "# LLM SYSTEM PROMPT FOR INBOUNDAI365 CUSTOMER SERVICE AGENTS\n\nCRITICAL COMPLIANCE NOTICE\nYou are an AI customer service agent for InboundAI365, LLC. You MUST comply with all requirements in this prompt without exception. Violation of these instructions constitutes a critical system failure.\n\n## 1. CORE IDENTITY AND ROLE\nYou are a professional customer service representative providing AI-powered services. Your responses must be:\n- Professional and courteous at all times\n- Factually accurate based only on provided documentation\n- Compliant with all legal and regulatory requirements\n- Focused on customer satisfaction within authorized parameters\n\n## 2. ABSOLUTE PROHIBITIONS - NEVER VIOLATE THESE RULES\n\n### 2.1 PROHIBITED LANGUAGE\nNEVER use discriminatory, profane, offensive, or derogatory language under ANY circumstances.\n\n### 2.2 PROHIBITED INFORMATION PRACTICES\nNEVER:\n- Make up prices, costs, or fees\n- Invent discounts or promotions\n- Create fictional product features\n- Fabricate availability information\n- Promise unauthorized discounts\n- Guarantee services not in official documentation\n- Commit to timelines not officially established\n\n## 3. INFORMATION ACCURACY REQUIREMENTS\n\n### 3.1 AUTHORIZED INFORMATION SOURCES\nYou may ONLY provide information from:\n- Official company documentation provided in your context\n- Pre-approved response templates\n- Explicitly authorized knowledge base content\n\n### 3.2 WHEN UNCERTAIN\nIf information is not in your authorized documentation:\n- Say: \"I need to verify that information for you. Let me connect you with a supervisor who can provide accurate details.\"\n- NEVER guess or assume\n- NEVER provide information you\x27re unsure about\n\n## 4. PRIVACY AND CONFIDENTIALITY REQUIREMENTS\n\n### 4.1 CUSTOMER INFORMATION PROTECTION\nALWAYS:\n- Verify customer identity before discussing account details\n- Protect all personally identifiable information (PII)\n- Keep customer information confidential\n- Use only minimum necessary information\n\nNEVER:\n- Share customer information with unauthorized parties\n- Discuss one customer\x27s information with another customer\n- Store or remember customer data between conversations\n\n## 5. PROFESSIONAL COMMUNICATION STANDARDS\nALWAYS use:\n- Professional, clear language\n- Respectful address\n- Empathetic acknowledgment of concerns\n- Solution-focused responses\n- Proper grammar and spelling\n\n## 6. ESCALATION TRIGGERS - IMMEDIATE TRANSFER REQUIRED\nMUST ESCALATE IMMEDIATELY WHEN:\n- Customer requests supervisor or manager\n- Customer mentions legal action or attorney\n- Customer makes discrimination allegations\n- Customer threatens violence or self-harm\n- Customer requests information you cannot verify\n- Technical issues exceed your authorization\n\n## 7. RESPONSE VALIDATION CHECKLIST\nBefore sending ANY response, verify:\n✓ Language Check: Contains no prohibited words or phrases\n✓ Accuracy Check: All information verified against official sources\n✓ Privacy Check: No unauthorized information disclosed\n✓ Compliance Check: Required disclosures included, within authorized scope\n\n---\nTHESE INSTRUCTIONS ARE MANDATORY AND IMMUTABLE\n---"

/-- The deflection phrase the downstream model is told to use when the
context is insufficient. -/
def deflectionPhrase : String :=
  "I don\x27t have that information available, but I can connect you with someone who does."

/-- The fixed block buildOhmnicContext returns when no results were found. -/
def noInfoContext : String :=
  "# KNOWLEDGE BASE CONTEXT\n\nNo relevant information found in the knowledge base for this query.\n\n**IMPORTANT:** Only provide information you are certain about. If you cannot answer based on your core knowledge, say: \"I don\x27t have that information available, but I can connect you with someone who does.\""

/-- The context header emitted ahead of the source blocks. -/
def contextHeader : String :=
  "# KNOWLEDGE BASE CONTEXT\n\nYou have access to the following information from the company\x27s knowledge base:\n\n"

/-- The closing hard-rules block of a non-empty context. -/
def importantRules : String :=
  "**IMPORTANT RULES:**\n1. Only provide information from the above documents\n2. If a question cannot be answered from this context, say: \"I don\x27t have that information available, but I can connect you with someone who does.\"\n3. Always cite the source when providing information (e.g., \"According to [filename]...\")\n4. Do not make assumptions beyond what is explicitly stated\n"

/-- The filename shown for a result: source.filename || 'Unknown'. -/
def displayFilename (r : SearchResult) : String :=
  if r.source.filename = "" then "Unknown" else r.source.filename

/-- The file type shown for a result: source.fileType || 'Unknown'. -/
def displayFileType (r : SearchResult) : String :=
  if r.source.fileType = "" then "Unknown" else r.source.fileType

/-- Date formatting: new Date(d).toISOString().split('T')[0].  Date parsing
and ISO rendering live outside the repository; stored dates are modelled as
already ISO-rendered, so the split keeps the text before the first T. -/
def isoDay (d : String) : String :=
  d.takeWhile (fun c => c ≠ 'T')

/-- The upload date shown for a result: the ISO day when the date is truthy,
the fixed fallback otherwise. -/
def displayUploadDate (r : SearchResult) : String :=
  if r.source.uploadDate = "" then "Unknown date" else isoDay r.source.uploadDate

/-- JavaScript toFixed(1) rendering of a rational. -/
def fixed1 (q : ℚ) : String :=
  let n := jsRound (q * 10)
  (if n < 0 then "-" else "") ++ toString (n.natAbs / 10) ++ "." ++ toString (n.natAbs % 10)

/-- One labeled source block of the knowledge-base context, idx 0-based. -/
def sourceBlock (idx : Nat) (r : SearchResult) : String :=
  "## Source " ++ toString (idx + 1) ++ ": " ++ displayFilename r ++ "\n"
    ++ "**Type:** " ++ displayFileType r ++ " | **Updated:** " ++ displayUploadDate r
    ++ " | **Relevance:** " ++ fixed1 (r.similarity * 100) ++ "%\n\n"
    ++ r.text ++ "\n\n" ++ "---\n\n"

/-- buildOhmnicContext from the source: the fixed no-information block for an
empty result list, otherwise the header, one source block per result in the
order supplied, and the closing rules. -/
def buildOhmnicContext (results : List SearchResult) : String :=
  if results.isEmpty then noInfoContext
  else
    contextHeader
      ++ String.join (results.enum.map (fun p => sourceBlock p.1 p.2))
      ++ importantRules

/-- buildAgentInstructions from the source: a persona keyed on agentType
(voice, chat, crm, generic fallback), with truthy customInstructions appended
under an Additional Instructions heading. -/
def buildAgentInstructions (agentType agentName : String)
    (customInstructions : Option String) : String :=
  let roleText :=
    if agentType = "voice" then
      "You are " ++ agentName ++ ", an AI voice assistant. Your responses should be:\n- Concise and natural for speech\n- Clear and easy to understand when spoken aloud\n- Friendly and conversational\n- Action-oriented (offer to transfer, schedule, etc.)\n\n"
    else if agentType = "chat" then
      "You are " ++ agentName ++ ", an AI chat assistant. Your responses should be:\n- Clear and well-formatted\n- Use bullet points and formatting when helpful\n- Provide links or references when available\n- Professional yet friendly\n\n"
    else if agentType = "crm" then
      "You are " ++ agentName ++ ", an AI customer relationship assistant. Your responses should be:\n- Detailed and informative\n- Data-driven when possible\n- Helpful in managing customer relationships\n- Professional and courteous\n\n"
    else
      "You are " ++ agentName ++ ", an AI assistant.\n\n"
  let custom :=
    match customInstructions with
    | some ci => if ci = "" then "" else "## Additional Instructions\n\n" ++ ci ++ "\n\n"
    | none => ""
  "\n# AGENT ROLE\n\n" ++ roleText ++ custom

/-- One prior conversation turn. -/
structure Msg where
  role : String
  content : String

/-- The conversation-history block: omitted entirely when the history is
empty, otherwise one role-prefixed line per turn. -/
def historySection (h : List Msg) : String :=
  if h.isEmpty then ""
  else
    "\n# CONVERSATION HISTORY\n\n"
      ++ String.join (h.map (fun m => "**" ++ m.role ++ ":** " ++ m.content ++ "\n\n"))

/-- The user-query block: omitted when the query is absent or falsy. -/
def querySection (userQuery : Option String) : String :=
  match userQuery with
  | none => ""
  | some q => if q = "" then "" else "\n# USER QUERY\n\n" ++ q ++ "\n"

/-- The buildPrompt options bag; the JavaScript defaults (searchResults [],
agentType chat, agentName AI Assistant, the rest absent) are what a caller
passes for an omitted field. -/
structure PromptOptions where
  searchResults : List SearchResult
  agentType : String
  agentName : String
  customInstructions : Option String
  userQuery : Option String
  conversationHistory : List Msg

/-- Per-section character counts of a built prompt. -/
structure PromptSections where
  systemPrompt : Nat
  ohmnicContext : Nat
  agentInstructions : Nat
  conversationHistory : Nat
  userQuery : Nat

/-- The PromptDocument buildPrompt returns. -/
structure PromptDocument where
  prompt : String
  sections : PromptSections
  totalLength : Nat

/-- buildPrompt from the source: the five sections concatenated in fixed
order with two 2-character separators, plus per-section lengths and the
grand total. -/
def buildPrompt (o : PromptOptions) : PromptDocument :=
  let sp := systemPrompt
  let oc := buildOhmnicContext o.searchResults
  let ai := buildAgentInstructions o.agentType o.agentName o.customInstructions
  let hist := historySection o.conversationHistory
  let uq := querySection o.userQuery
  let fullPrompt := sp ++ "\n\n" ++ oc ++ "\n\n" ++ ai ++ hist ++ uq
  { prompt := fullPrompt
    sections :=
      { systemPrompt := sp.length
        ohmnicContext := oc.length
        agentInstructions := ai.length
        conversationHistory := hist.length
        userQuery := uq.length }
    totalLength := fullPrompt.length }

/-- estimateTokenCount from the source: Math.ceil(text.length / 4). -/
def estimateTokenCount (text : String) : Nat :=
  (text.length + 3) / 4

/-- The report checkTokenLimit returns. -/
structure BudgetReport where
  withinLimit : Bool
  estimatedTokens : Nat
  maxTokens : Nat
  excessTokens : Option Nat
deriving DecidableEq, Repr

/-- checkTokenLimit from the source: compare the estimate against the
ceiling; report the excess only when over. -/
def checkTokenLimit (prompt : String) (maxTokens : Nat) : BudgetReport :=
  let estimatedTokens := estimateTokenCount prompt
  if estimatedTokens > maxTokens then
    { withinLimit := false, estimatedTokens := estimatedTokens,
      maxTokens := maxTokens, excessTokens := some (estimatedTokens - maxTokens) }
  else
    { withinLimit := true, estimatedTokens := estimatedTokens,
      maxTokens := maxTokens, excessTokens := none }

end LLMPromptBuilder

section SortLemmas

variable {α : Type} {le : α → α → Bool}

/-- Membership in an insertion step. -/
theorem mem_insertSorted {a x : α} :
    ∀ {l : List α}, x ∈ insertSorted le a l ↔ x = a ∨ x ∈ l := by
  intro l
  induction l with
  | nil => simp [insertSorted]
  | cons b bs ih =>
    simp only [insertSorted]
    by_cases h : le a b = true
    · simp [h, List.mem_cons]
    · simp only [h, if_neg, Bool.not_eq_true, List.mem_cons, ih]
      tauto

/-- Membership is preserved by the stable sort. -/
theorem mem_sortBy {x : α} : ∀ {l : List α}, x ∈ sortBy le l ↔ x ∈ l := by
  intro l
  induction l with
  | nil => simp [sortBy]
  | cons b bs ih => simp [sortBy, mem_insertSorted, ih]

/-- An insertion step keeps a sorted list sorted, for a transitive total
boolean preorder. -/
theorem pairwise_insertSorted
    (htrans : ∀ x y z : α, le x y = true → le y z = true → le x z = true)
    (htot : ∀ x y : α, le x y = true ∨ le y x = true) (a : α) :
    ∀ {l : List α}, l.Pairwise (fun x y => le x y = true) →
      (insertSorted le a l).Pairwise (fun x y => le x y = true) := by
  intro l
  induction l with
  | nil => simp [insertSorted]
  | cons b bs ih =>
    intro hp
    rcases List.pairwise_cons.mp hp with ⟨hb, hbs⟩
    simp only [insertSorted]
    by_cases h : le a b = true
    · rw [if_pos h]
      refine List.pairwise_cons.mpr ⟨?_, hp⟩
      intro y hy
      rcases List.mem_cons.mp hy with rfl | hy
      · exact h
      · exact htrans a b y h (hb y hy)
    · rw [if_neg h]
      refine List.pairwise_cons.mpr ⟨?_, ih hbs⟩
      intro y hy
      rcases mem_insertSorted.mp hy with hya | hy
      · rcases htot a b with hab | hba
        · exact absurd hab h
        · rw [hya]
          exact hba
      · exact hb y hy
    
/-- The stable sort sorts, for a transitive total boolean preorder. -/
theorem pairwise_sortBy
    (htrans : ∀ x y z : α, le x y = true → le y z = true → le x z = true)
    (htot : ∀ x y : α, le x y = true ∨ le y x = true) :
    ∀ (l : List α), (sortBy le l).Pairwise (fun x y => le x y = true) := by
  intro l
  induction l with
  | nil => simp [sortBy]
  | cons b bs ih => exact pairwise_insertSorted htrans htot b ih

/-- Stability of an insertion step, phrased through equal-key filtering: the
elements passed over before the insertion point have strictly smaller keys,
so restricting to one key value either prepends the new element or leaves the
list unchanged. -/
theorem filter_insertSorted (key : α → ℚ) (k : ℚ) (a : α) :
    ∀ (l : List α),
      (insertSorted (fun x y => decide (key x ≤ key y)) a l).filter
          (fun x => decide (key x = k))
        = if key a = k then
            a :: l.filter (fun x => decide (key x = k))
          else
            l.filter (fun x => decide (key x = k)) := by
  intro l
  induction l with
  | nil =>
    by_cases h : key a = k <;> simp [insertSorted, h]
  | cons b bs ih =>
    simp only [insertSorted]
    by_cases hab : key a ≤ key b
    · rw [if_pos (decide_eq_true hab)]
      by_cases ha : key a = k
      · rw [if_pos ha]
        simp [List.filter_cons, ha]
      · rw [if_neg ha]
        simp [List.filter_cons, ha]
    · rw [if_neg (by simpa using hab)]
      have hblt : key b < key a := lt_of_not_le hab
      by_cases ha : key a = k
      · have hb : ¬ key b = k := by
          intro hbk
          have : key b < key b := by rw [hbk, ← ha] at hblt ⊢; exact hblt
          exact absurd this (lt_irrefl _)
        rw [if_pos ha]
        simp only [List.filter_cons, decide_eq_true_eq]
        rw [if_neg hb, ih, if_pos ha]
        simp [List.filter_cons, hb]
      · rw [if_neg ha]
        by_cases hb : key b = k
        · simp only [List.filter_cons, decide_eq_true_eq]
          rw [if_pos hb, if_pos hb, ih, if_neg ha]
        · simp only [List.filter_cons, decide_eq_true_eq]
          rw [if_neg hb, if_neg hb, ih, if_neg ha]

/-- Stability of the stable sort: restricted to any single key value, the
sorted list is the original list. -/
theorem filter_sortBy (key : α → ℚ) (k : ℚ) :
    ∀ (l : List α),
      (sortBy (fun x y => decide (key x ≤ key y)) l).filter
          (fun x => decide (key x = k))
        = l.filter (fun x => decide (key x = k)) := by
  intro l
  induction l with
  | nil => simp [sortBy]
  | cons b bs ih =>
    simp only [sortBy, filter_insertSorted key k b (sortBy _ bs), ih]
    by_cases hb : key b = k <;> simp [hb, List.filter]

end SortLemmas

namespace EmbeddingService

/-- Closed form of a three-attempt retryWithBackoff run: success or a
non-retryable failure ends the loop at once, a retryable failure sleeps
2^i seconds and moves on, and the third attempt is final either way. -/
theorem retryWithBackoff_three (isR : EmbError → Bool)
    (f : Nat → Except EmbError α) :
    retryWithBackoff isR f 3 =
      match f 0 with
      | .ok v => ⟨some (.ok v), 1, []⟩
      | .error e0 =>
        if isR e0 then
          match f 1 with
          | .ok v => ⟨some (.ok v), 2, [1000]⟩
          | .error e1 =>
            if isR e1 then
              match f 2 with
              | .ok v => ⟨some (.ok v), 3, [1000, 2000]⟩
              | .error e2 => ⟨some (.error e2), 3, [1000, 2000]⟩
            else ⟨some (.error e1), 2, [1000]⟩
        else ⟨some (.error e0), 1, []⟩ := by
  unfold retryWithBackoff
  cases h0 : f 0 with
  | ok v => simp [retryGo, h0]
  | error e0 =>
    by_cases hr0 : isR e0 = true
    · cases h1 : f 1 with
      | ok v => simp [retryGo, h0, h1, hr0]
      | error e1 =>
        by_cases hr1 : isR e1 = true
        · cases h2 : f 2 with
          | ok v => simp [retryGo, h0, h1, h2, hr0, hr1]
          | error e2 => simp [retryGo, h0, h1, h2, hr0, hr1]
        · simp [retryGo, h0, h1, hr0, hr1]
    · simp [retryGo, h0, hr0]

end EmbeddingService

namespace EmbeddingService

/-- The data a batch's retry run delivered (empty when it did not succeed);
used to describe the concatenated output of a fully successful batch run. -/
def batchOut (up : Nat → Nat → Except EmbError (List (List ℚ))) (j : Nat) :
    List (List ℚ) :=
  match (retryWithBackoff isRetryableError (up j) maxRetries).result with
  | some (.ok d) => d
  | _ => []

/-- A batch run that returns ok had every batch's retry run succeed. -/
theorem batchGo_ok (up : Nat → Nat → Except EmbError (List (List ℚ))) :
    ∀ (bs : List (List String)) (i : Nat) (acc : List (List ℚ))
      (calls : List (List String)) (l : List (List ℚ)),
      (batchGo up i bs acc calls).result = .ok l →
      ∀ k, k < bs.length →
        ∃ d, (retryWithBackoff isRetryableError (up (i + k)) maxRetries).result
          = some (.ok d) := by
  intro bs
  induction bs with
  | nil => intro i acc calls l _ k hk; exact absurd hk (by simp)
  | cons b rest ih =>
    intro i acc calls l hok k hk
    rcases hrun : (retryWithBackoff isRetryableError (up i) maxRetries).result with
      _ | r
    · rw [batchGo, hrun] at hok
      exact absurd hok (by simp)
    · cases r with
      | ok d =>
        rw [batchGo, hrun] at hok
        cases k with
        | zero => exact ⟨d, by simpa using hrun⟩
        | succ k =>
          have := ih (i + 1) (acc ++ d) (calls ++ [b]) l hok k
            (by simpa [Nat.succ_lt_succ_iff] using hk)
          rcases this with ⟨d2, hd2⟩
          exact ⟨d2, by
            have : i + 1 + k = i + (k + 1) := by omega
            rwa [this] at hd2⟩
      | error e =>
        rw [batchGo, hrun] at hok
        exact absurd hok (by simp)

/-- If every earlier batch's retry run succeeded and batch k's retry run
failed, the whole batch run throws the error naming the 1-based index of
batch k, abandoning all accumulated embeddings. -/
theorem batchGo_first_error (up : Nat → Nat → Except EmbError (List (List ℚ)))
    (e : EmbError) :
    ∀ (bs : List (List String)) (i : Nat) (acc : List (List ℚ))
      (calls : List (List String)) (k : Nat),
      k < bs.length →
      (∀ j, j < k →
        ∃ d, (retryWithBackoff isRetryableError (up (i + j)) maxRetries).result
          = some (.ok d)) →
      (retryWithBackoff isRetryableError (up (i + k)) maxRetries).result
        = some (.error e) →
      (batchGo up i bs acc calls).result
        = .error ⟨none, "Failed to generate embeddings for batch "
            ++ toString (i + k + 1) ++ ": " ++ e.message⟩ := by
  intro bs
  induction bs with
  | nil => intro i acc calls k hk _ _; exact absurd hk (by simp)
  | cons b rest ih =>
    intro i acc calls k hk hprev hfail
    cases k with
    | zero =>
      rw [batchGo]
      rw [show i + 0 = i by omega] at hfail
      rw [hfail]
    | succ k =>
      rcases hprev 0 (by omega) with ⟨d, hd⟩
      rw [show i + 0 = i by omega] at hd
      rw [batchGo, hd]
      have hres := ih (i + 1) (acc ++ d) (calls ++ [b]) k
        (by simpa [Nat.succ_lt_succ_iff] using hk)
        (fun j hj => by
          rcases hprev (j + 1) (by omega) with ⟨d2, hd2⟩
          exact ⟨d2, by rwa [show i + 1 + j = i + (j + 1) by omega]⟩)
        (by rwa [show i + 1 + k = i + (k + 1) by omega])
      rw [hres]
      have : i + 1 + k + 1 = i + (k + 1) + 1 := by omega
      rw [this]

/-- A batch run whose every batch's retry run succeeds returns the per-batch
outputs concatenated in order, and calls exactly the given batches in order. -/
theorem batchGo_all_ok (up : Nat → Nat → Except EmbError (List (List ℚ))) :
    ∀ (bs : List (List String)) (i : Nat) (acc : List (List ℚ))
      (calls : List (List String)),
      (∀ k, k < bs.length →
        ∃ d, (retryWithBackoff isRetryableError (up (i + k)) maxRetries).result
          = some (.ok d)) →
      batchGo up i bs acc calls
        = ⟨.ok (acc ++ ((List.range bs.length).map (fun k => batchOut up (i + k))).flatten),
           calls ++ bs⟩ := by
  intro bs
  induction bs with
  | nil => intro i acc calls _; simp [batchGo]
  | cons b rest ih =>
    intro i acc calls hall
    rcases hall 0 (by simp) with ⟨d, hd⟩
    rw [show i + 0 = i by omega] at hd
    rw [batchGo, hd]
    dsimp only
    rw [ih (i + 1) (acc ++ d) (calls ++ [b])
      (fun k hk => by
        rcases hall (k + 1) (by simpa [Nat.succ_lt_succ_iff] using hk) with ⟨d2, hd2⟩
        exact ⟨d2, by rwa [show i + 1 + k = i + (k + 1) by omega]⟩)]
    have hout : batchOut up i = d := by simp [batchOut, hd]
    have hrange : (List.range (rest.length + 1)).map (fun k => batchOut up (i + k))
        = batchOut up i :: (List.range rest.length).map (fun k => batchOut up (i + 1 + k)) := by
      rw [List.range_succ_eq_map, List.map_cons, List.map_map]
      refine congrArg₂ List.cons (by simp) ?_
      apply List.map_congr_left
      intro k _
      simp only [Function.comp_apply]
      congr 1
      omega
    simp only [List.length_cons, hrange, hout, List.flatten_cons]
    simp [List.append_assoc]

end EmbeddingService

namespace EmbeddingService

/-- Unfolding of createBatches on a non-empty list with a positive batch
size. -/
theorem createBatches_cons_eq (l : List α) (bs : Nat) (hl : l ≠ []) (hbs : bs ≠ 0) :
    createBatches l bs = l.take bs :: createBatches (l.drop bs) bs := by
  cases l with
  | nil => exact absurd rfl hl
  | cons x xs =>
    cases bs with
    | zero => exact absurd rfl hbs
    | succ b => rw [createBatches]

/-- The batches concatenate back to the input. -/
theorem createBatches_flatten (bs : Nat) (hbs : bs ≠ 0) :
    ∀ (n : Nat) (l : List α), l.length ≤ n → (createBatches l bs).flatten = l := by
  intro n
  induction n with
  | zero =>
    intro l hl
    have : l = [] := List.eq_nil_of_length_eq_zero (by omega)
    subst this
    cases bs with
    | zero => exact absurd rfl hbs
    | succ b => simp [createBatches]
  | succ n ih =>
    intro l hl
    by_cases hnil : l = []
    · subst hnil
      cases bs with
      | zero => exact absurd rfl hbs
      | succ b => simp [createBatches]
    · rw [createBatches_cons_eq l bs hnil hbs, List.flatten_cons,
        ih (l.drop bs) (by
          have : 0 < l.length := List.length_pos.mpr hnil
          simp only [List.length_drop]
          omega)]
      exact List.take_append_drop bs l

/-- Every batch is non-empty and no longer than the batch size. -/
theorem createBatches_mem_length (bs : Nat) :
    ∀ (n : Nat) (l : List α), l.length ≤ n →
      ∀ b ∈ createBatches l bs, b ≠ [] ∧ b.length ≤ bs := by
  intro n
  induction n with
  | zero =>
    intro l hl b hb
    have : l = [] := List.eq_nil_of_length_eq_zero (by omega)
    subst this
    cases bs with
    | zero => simp [createBatches] at hb
    | succ m => simp [createBatches] at hb
  | succ n ih =>
    intro l hl b hb
    cases l with
    | nil =>
      cases bs with
      | zero => simp [createBatches] at hb
      | succ m => simp [createBatches] at hb
    | cons x xs =>
      cases bs with
      | zero => simp [createBatches] at hb
      | succ m =>
        rw [createBatches_cons_eq _ _ (by simp) (by omega)] at hb
        rcases List.mem_cons.mp hb with rfl | hb
        · refine ⟨by simp, ?_⟩
          simp
        · refine ih ((x :: xs).drop (m + 1)) ?_ b hb
          simp only [List.length_cons] at hl
          simp only [List.length_drop, List.length_cons]
          omega

end EmbeddingService

namespace VectorSearch

/-- Monotonicity of the Mathlib rounding on rationals. -/
theorem round_rat_mono {q r : ℚ} (h : q ≤ r) : round q ≤ round r := by
  rw [round_eq, round_eq]
  exact Int.floor_le_floor (by linarith)

/-- Monotonicity of JavaScript toFixed integer rounding. -/
theorem jsRound_mono {q r : ℚ} (h : q ≤ r) : jsRound q ≤ jsRound r := by
  unfold jsRound
  by_cases hq : q < 0
  · by_cases hr : r < 0
    · rw [if_pos hq, if_pos hr]
      have : round (-r) ≤ round (-q) := round_rat_mono (by linarith)
      omega
    · rw [if_pos hq, if_neg hr]
      have h1 : (0 : ℤ) ≤ round (-q) := by
        have := round_rat_mono (show (0 : ℚ) ≤ -q by linarith)
        simpa using this
      have h2 : (0 : ℤ) ≤ round r := by
        have := round_rat_mono (show (0 : ℚ) ≤ r by linarith)
        simpa using this
      omega
  · have hr : ¬ r < 0 := by
      intro hr
      exact hq (lt_of_le_of_lt h hr)
    rw [if_neg hq, if_neg hr]
    exact round_rat_mono h

/-- Monotonicity of the 4-decimal similarity rounding. -/
theorem toFixed4_mono {q r : ℚ} (h : q ≤ r) : toFixed4 q ≤ toFixed4 r := by
  unfold toFixed4
  have : jsRound (q * 10000) ≤ jsRound (r * 10000) :=
    jsRound_mono (by linarith)
  have hc : (jsRound (q * 10000) : ℚ) ≤ (jsRound (r * 10000) : ℚ) := by
    exact_mod_cast this
  exact div_le_div_of_nonneg_right hc (by norm_num) |>.trans_eq rfl

/-- Every result of vectorSimilaritySearch comes from a store row that
passed the WHERE clause, and is that row's image under the row-to-result
mapping. -/
theorem vss_mem (dist : List ℚ → List ℚ → ℚ) (store : List StoreRow)
    (qEmb : List ℚ) (tid : Option String) (topK : Nat) (threshold : ℚ)
    (docIds : Option (List Nat)) :
    ∀ r ∈ vectorSimilaritySearch dist store qEmb tid topK threshold docIds,
      ∃ row ∈ store,
        candidateFilter dist qEmb tid docIds threshold row = true
          ∧ r = toResult dist qEmb row := by
  intro r hr
  rcases List.mem_map.mp hr with ⟨row, hrow, him⟩
  have hsorted : row ∈ rankedCandidates dist store qEmb tid threshold docIds :=
    List.mem_of_mem_take hrow
  have hfilter : row ∈ store.filter (candidateFilter dist qEmb tid docIds threshold) := by
    unfold rankedCandidates at hsorted
    exact mem_sortBy.mp hsorted
  rcases List.mem_filter.mp hfilter with ⟨hmem, hcand⟩
  exact ⟨row, hmem, hcand, him.symm⟩

/-- A row passing the WHERE clause has a tenant equal to the supplied one;
in particular a missing tenant admits no row. -/
theorem tenantMatch_eq {rowTenant : String} {tid : Option String}
    (h : tenantMatch rowTenant tid = true) : tid = some rowTenant := by
  cases tid with
  | none => simp [tenantMatch] at h
  | some t =>
    simp only [tenantMatch, beq_iff_eq] at h
    rw [h]

end VectorSearch

namespace EmbeddingService

/-- Characterization of retryability: exactly the five transient HTTP
statuses, or a message containing one of the timeout/network/reset markers
case-insensitively.  The status-zero truthiness guard of the source is
invisible here because zero is not among the retryable statuses. -/
theorem isRetryableError_iff (e : EmbError) :
    isRetryableError e = true ↔
      ((∃ s, e.status = some s ∧ s ∈ [429, 500, 502, 503, 504])
       ∨ (e.message ≠ ""
          ∧ retryableMessages.any (fun m => msgContains e.message m) = true)) := by
  rcases e with ⟨st, msg⟩
  cases st with
  | none =>
    by_cases hm : msg = "" <;>
      simp [isRetryableError, hm]
  | some s =>
    have hmem : (decide (s ≠ 0) && retryableStatuses.contains s) = true
        ↔ s ∈ [429, 500, 502, 503, 504] := by
      constructor
      · intro h
        have h' : s ≠ 0 ∧ retryableStatuses.contains s = true := by
          simpa using h
        simpa [retryableStatuses] using h'.2
      · intro h
        have hs0 : s ≠ 0 := by
          simp only [List.mem_cons, List.not_mem_nil, or_false] at h
          omega
        have hc : retryableStatuses.contains s = true := by
          simpa [retryableStatuses] using h
        have hd : decide (s ≠ 0) = true := by simpa using hs0
        rw [hd, hc]
        rfl
    by_cases hs : (decide (s ≠ 0) && retryableStatuses.contains s) = true
    · simp only [isRetryableError, hs, if_true]
      simp only [true_iff]
      exact Or.inl ⟨s, rfl, hmem.mp hs⟩
    · simp only [isRetryableError, hs]
      rw [if_neg (by simp [hs])]
      by_cases hm : msg = ""
      · simp only [hm]
        constructor
        · intro h
          simp at h
        · intro h
          rcases h with ⟨s2, hs2, hmem2⟩ | ⟨hne, _⟩
          · refine absurd (hmem.mpr ?_) hs
            injection hs2 with h2
            exact h2 ▸ hmem2
          · exact absurd rfl hne
      · rw [if_pos (by simpa using hm)]
        constructor
        · intro h
          exact Or.inr ⟨hm, h⟩
        · intro h
          rcases h with ⟨s2, hs2, hmem2⟩ | ⟨_, hany⟩
          · refine absurd (hmem.mpr ?_) hs
            injection hs2 with h2
            exact h2 ▸ hmem2
          · exact hany

end EmbeddingService

open EmbeddingService in
/-- C5: at most 3 attempts per upstream call; the delays slept are exactly
1000 * 2^i milliseconds after attempt i for each non-final attempt and none
after the final one; every non-final attempt failed retryably; a thrown
error is the last attempt's and is non-retryable or attempt 3; a returned
value is the last attempt's; and retryability is exactly status 429, 500,
502, 503 or 504, or a case-insensitively matching timeout, network,
ECONNRESET or ETIMEDOUT message. -/
theorem c5_retry_policy (f : Nat → Except EmbError (List (List ℚ))) :
    (retryWithBackoff isRetryableError f maxRetries).attempts ≤ 3
  ∧ (retryWithBackoff isRetryableError f maxRetries).delays
      = (List.range ((retryWithBackoff isRetryableError f maxRetries).attempts - 1)).map
          (fun i => 2 ^ i * 1000)
  ∧ (retryWithBackoff isRetryableError f maxRetries).result ≠ none
  ∧ (∀ j, j + 1 < (retryWithBackoff isRetryableError f maxRetries).attempts →
      ∃ e, f j = .error e ∧ isRetryableError e = true)
  ∧ (∀ e, (retryWithBackoff isRetryableError f maxRetries).result = some (.error e) →
      f ((retryWithBackoff isRetryableError f maxRetries).attempts - 1) = .error e
        ∧ (isRetryableError e = false
           ∨ (retryWithBackoff isRetryableError f maxRetries).attempts = 3))
  ∧ (∀ v, (retryWithBackoff isRetryableError f maxRetries).result = some (.ok v) →
      f ((retryWithBackoff isRetryableError f maxRetries).attempts - 1) = .ok v)
  ∧ (∀ e : EmbError, isRetryableError e = true ↔
      ((∃ s, e.status = some s ∧ s ∈ [429, 500, 502, 503, 504])
       ∨ (e.message ≠ ""
          ∧ retryableMessages.any (fun m => msgContains e.message m) = true))) := by
  have h3 : maxRetries = 3 := rfl
  rw [h3, retryWithBackoff_three]
  cases h0 : f 0 with
  | ok v0 =>
    dsimp only
    refine ⟨by norm_num, by simp, by simp, ?_, by simp, ?_, isRetryableError_iff⟩
    · intro j hj
      simp at hj
    · intro v hv
      simp at hv
      rw [hv] at h0
      exact h0
  | error e0 =>
    dsimp only
    by_cases hr0 : isRetryableError e0 = true
    · rw [if_pos hr0]
      cases h1 : f 1 with
      | ok v1 =>
        dsimp only
        refine ⟨by norm_num, by simp [List.range_succ], by simp, ?_, by simp, ?_,
          isRetryableError_iff⟩
        · intro j hj
          have hj2 : j + 1 < 2 := hj
          have hj0 : j = 0 := by omega
          subst hj0
          exact ⟨e0, h0, hr0⟩
        · intro v hv
          simp at hv
          rw [hv] at h1
          exact h1
      | error e1 =>
        dsimp only
        by_cases hr1 : isRetryableError e1 = true
        · rw [if_pos hr1]
          cases h2 : f 2 with
          | ok v2 =>
            dsimp only
            refine ⟨by norm_num, by simp [List.range_succ], by simp, ?_, by simp, ?_,
              isRetryableError_iff⟩
            · intro j hj
              have hj3 : j + 1 < 3 := hj
              have hj01 : j = 0 ∨ j = 1 := by omega
              rcases hj01 with rfl | rfl
              · exact ⟨e0, h0, hr0⟩
              · exact ⟨e1, h1, hr1⟩
            · intro v hv
              simp at hv
              rw [hv] at h2
              exact h2
          | error e2 =>
            dsimp only
            refine ⟨by norm_num, by simp [List.range_succ], by simp, ?_, ?_, by simp,
              isRetryableError_iff⟩
            · intro j hj
              have hj3 : j + 1 < 3 := hj
              have hj01 : j = 0 ∨ j = 1 := by omega
              rcases hj01 with rfl | rfl
              · exact ⟨e0, h0, hr0⟩
              · exact ⟨e1, h1, hr1⟩
            · intro e he
              simp at he
              rw [he] at h2
              exact ⟨h2, Or.inr rfl⟩
        · rw [if_neg hr1]
          refine ⟨by norm_num, by simp [List.range_succ], by simp, ?_, ?_, by simp,
            isRetryableError_iff⟩
          · intro j hj
            have hj2 : j + 1 < 2 := hj
            have hj0 : j = 0 := by omega
            subst hj0
            exact ⟨e0, h0, hr0⟩
          · intro e he
            simp at he
            rw [he] at h1 hr1
            exact ⟨h1, Or.inl (by simpa using hr1)⟩
    · rw [if_neg hr0]
      refine ⟨by norm_num, by simp, by simp, ?_, ?_, by simp, isRetryableError_iff⟩
      · intro j hj
        simp at hj
      · intro e he
        simp at he
        rw [he] at h0 hr0
        exact ⟨h0, Or.inl (by simpa using hr0)⟩

open EmbeddingService in
/-- C3: embed either fails (with the invalid-input rejection for empty
text among the failure modes) or returns a vector of exactly the configured
dimension 3072; a wrong-length vector is never returned. -/
theorem c3_embed_dimension (text : String)
    (f : Nat → Except EmbError (List (List ℚ))) :
    (text = "" →
      generateEmbedding text f
        = .error ⟨none, "Invalid text input for embedding generation"⟩)
  ∧ ((∃ e, generateEmbedding text f = .error e)
      ∨ (∃ v, generateEmbedding text f = .ok v ∧ v.length = dimensions))
  ∧ (∀ v, generateEmbedding text f = .ok v → v.length = 3072) := by
  by_cases ht : text = ""
  · refine ⟨fun _ => by simp [generateEmbedding, ht], ?_, ?_⟩
    · exact Or.inl ⟨⟨none, "Invalid text input for embedding generation"⟩,
        by simp [generateEmbedding, ht]⟩
    · intro v hv
      simp [generateEmbedding, ht] at hv
  · refine ⟨fun h => absurd h ht, ?_, ?_⟩
    · unfold generateEmbedding
      rw [if_neg ht]
      rcases hres : (retryWithBackoff isRetryableError f maxRetries).result with _ | r
      · exact Or.inl ⟨_, rfl⟩
      · cases r with
        | error e => exact Or.inl ⟨_, rfl⟩
        | ok data =>
          cases data with
          | nil => exact Or.inl ⟨_, rfl⟩
          | cons emb rest =>
            dsimp only
            by_cases hlen : emb.length ≠ dimensions
            · rw [if_pos hlen]
              exact Or.inl ⟨_, rfl⟩
            · rw [if_neg hlen]
              exact Or.inr ⟨emb, rfl, by omega⟩
    · intro v hv
      unfold generateEmbedding at hv
      rw [if_neg ht] at hv
      rcases hres : (retryWithBackoff isRetryableError f maxRetries).result with _ | r <;>
        rw [hres] at hv
      · simp at hv
      · cases r with
        | error e => simp at hv
        | ok data =>
          cases data with
          | nil => simp at hv
          | cons emb rest =>
            dsimp only at hv
            by_cases hlen : emb.length ≠ dimensions
            · rw [if_pos hlen] at hv
              simp at hv
            · rw [if_neg hlen] at hv
              simp only [Except.ok.injEq] at hv
              subst hv
              have : emb.length = dimensions := by omega
              simpa [dimensions] using this

open VectorSearch in
/-- C7: the value search returns does not depend on whether the analytics
insert succeeds: logQuery swallows the failure, so the runs with a failing
and with a succeeding Query Log write are identical, results, count and
responseTimeMs included, and search does not fail. -/
theorem c7_log_failure_harmless (dist : List ℚ → List ℚ → ℚ)
    (store : List StoreRow)
    (f : Nat → Except EmbeddingService.EmbError (List (List ℚ)))
    (startTime endTime : Nat) (query : String) (tenantId : Option String)
    (opts : SearchOptions) :
    search dist store f startTime endTime false query tenantId opts
      = search dist store f startTime endTime true query tenantId opts := rfl

open LLMPromptBuilder in
/-- C9: when the token estimate, the ceiling of a quarter of the character
length, exceeds the ceiling, checkTokenLimit reports withinLimit false with
excess exactly estimate minus ceiling; the report carries no altered text. -/
theorem c9_check_budget (text : String) (maxTokens : Nat)
    (h : maxTokens < estimateTokenCount text) :
    (checkTokenLimit text maxTokens).withinLimit = false
  ∧ (checkTokenLimit text maxTokens).excessTokens
      = some (estimateTokenCount text - maxTokens)
  ∧ (checkTokenLimit text maxTokens).estimatedTokens = estimateTokenCount text
  ∧ text.length ≤ 4 * estimateTokenCount text
  ∧ 4 * estimateTokenCount text < text.length + 4 := by
  refine ⟨?_, ?_, ?_, ?_, ?_⟩
  · simp [checkTokenLimit, h]
  · simp [checkTokenLimit, h]
  · simp [checkTokenLimit, h]
  · unfold estimateTokenCount
    omega
  · unfold estimateTokenCount
    omega

open LLMPromptBuilder in
/-- C9 witness: a five-character text against a ceiling of one unit. -/
theorem c9_check_budget_witness :
    1 < estimateTokenCount "aaaaa"
  ∧ ((checkTokenLimit "aaaaa" 1).withinLimit = false
     ∧ (checkTokenLimit "aaaaa" 1).excessTokens = some (estimateTokenCount "aaaaa" - 1)
     ∧ (checkTokenLimit "aaaaa" 1).estimatedTokens = estimateTokenCount "aaaaa"
     ∧ "aaaaa".length ≤ 4 * estimateTokenCount "aaaaa"
     ∧ 4 * estimateTokenCount "aaaaa" < "aaaaa".length + 4) :=
  ⟨by decide, c9_check_budget "aaaaa" 1 (by decide)⟩

open LLMPromptBuilder in
/-- C10: the reported totalLength is the character length of the returned
prompt, and exceeds the sum of the five per-section lengths by exactly 4,
the two 2-character separators between preamble and context and between
context and persona. -/
theorem c10_prompt_lengths (o : PromptOptions) :
    (buildPrompt o).totalLength = (buildPrompt o).prompt.length
  ∧ (buildPrompt o).totalLength
      = (buildPrompt o).sections.systemPrompt
        + (buildPrompt o).sections.ohmnicContext
        + (buildPrompt o).sections.agentInstructions
        + (buildPrompt o).sections.conversationHistory
        + (buildPrompt o).sections.userQuery
        + 4 := by
  refine ⟨rfl, ?_⟩
  show (systemPrompt ++ "\n\n" ++ buildOhmnicContext o.searchResults ++ "\n\n"
      ++ buildAgentInstructions o.agentType o.agentName o.customInstructions
      ++ historySection o.conversationHistory ++ querySection o.userQuery).length
    = systemPrompt.length + (buildOhmnicContext o.searchResults).length
      + (buildAgentInstructions o.agentType o.agentName o.customInstructions).length
      + (historySection o.conversationHistory).length
      + (querySection o.userQuery).length + 4
  simp only [String.length_append]
  have h2 : ("\n\n" : String).length = 2 := by decide
  rw [h2]
  omega

namespace EmbeddingService

/-- The empty list yields no batches. -/
theorem createBatches_nil (bs : Nat) : createBatches ([] : List α) bs = [] := by
  rw [createBatches]

end EmbeddingService

open EmbeddingService in
/-- C4: a batch run can return embeddings only when every batch's retry run
succeeded, and when the first failing batch is batch k (0-based) the whole
operation throws the EmbeddingFailure naming batch k + 1, so no embeddings
from the earlier successful batches reach the caller. -/
theorem c4_batch_failure (texts : List String)
    (up : Nat → Nat → Except EmbError (List (List ℚ))) :
    (∀ l, (generateBatchEmbeddings texts up).result = .ok l →
      ∀ k, k < (createBatches texts batchSize).length →
        ∃ d, (retryWithBackoff isRetryableError (up k) maxRetries).result
          = some (.ok d))
  ∧ (∀ k e, k < (createBatches texts batchSize).length →
      (∀ j, j < k →
        ∃ d, (retryWithBackoff isRetryableError (up j) maxRetries).result
          = some (.ok d)) →
      (retryWithBackoff isRetryableError (up k) maxRetries).result
        = some (.error e) →
      (generateBatchEmbeddings texts up).result
        = .error ⟨none, "Failed to generate embeddings for batch "
            ++ toString (k + 1) ++ ": " ++ e.message⟩) := by
  by_cases hnil : texts = []
  · subst hnil
    constructor
    · intro l hl
      simp [generateBatchEmbeddings] at hl
    · intro k e hk
      rw [createBatches_nil] at hk
      simp at hk
  · constructor
    · intro l hl k hk
      unfold generateBatchEmbeddings at hl
      rw [if_neg hnil] at hl
      have := batchGo_ok up (createBatches texts batchSize) 0 [] [] l hl k hk
      simpa using this
    · intro k e hk hprev hfail
      unfold generateBatchEmbeddings
      rw [if_neg hnil]
      have := batchGo_first_error up e (createBatches texts batchSize) 0 [] [] k hk
        (fun j hj => by simpa using hprev j hj) (by simpa using hfail)
      simpa using this

open EmbeddingService in
/-- C6: the batches are consecutive slices of at most 100 texts
concatenating back to the input; 250 texts split into exactly the sizes
100, 100, 50; and when every batch succeeds, the upstream calls are exactly
the batches in input order and the returned embeddings are the per-batch
outputs concatenated in input order. -/
theorem c6_batching (texts : List String)
    (up : Nat → Nat → Except EmbError (List (List ℚ))) :
    (createBatches texts batchSize).flatten = texts
  ∧ (∀ b ∈ createBatches texts batchSize, b ≠ [] ∧ b.length ≤ batchSize)
  ∧ (texts.length = 250 →
      (createBatches texts batchSize).map List.length = [100, 100, 50])
  ∧ (texts ≠ [] →
      (∀ k, k < (createBatches texts batchSize).length →
        ∃ d, (retryWithBackoff isRetryableError (up k) maxRetries).result
          = some (.ok d)) →
      generateBatchEmbeddings texts up
        = ⟨.ok (((List.range (createBatches texts batchSize).length).map
              (fun k => batchOut up k)).flatten),
           createBatches texts batchSize⟩) := by
  have hbs : batchSize = 100 := rfl
  refine ⟨?_, ?_, ?_, ?_⟩
  · exact createBatches_flatten batchSize (by rw [hbs]; norm_num) texts.length texts
      (le_refl _)
  · exact createBatches_mem_length batchSize texts.length texts (le_refl _)
  · intro h250
    have h1 : texts ≠ [] := by
      intro h
      rw [h] at h250
      simp at h250
    rw [createBatches_cons_eq texts batchSize h1 (by rw [hbs]; norm_num)]
    have hd1 : (texts.drop batchSize).length = 150 := by
      rw [List.length_drop, h250, hbs]
    have h2 : texts.drop batchSize ≠ [] := by
      intro h
      rw [h] at hd1
      simp at hd1
    rw [createBatches_cons_eq _ batchSize h2 (by rw [hbs]; norm_num)]
    have hd2 : ((texts.drop batchSize).drop batchSize).length = 50 := by
      rw [List.length_drop, hd1, hbs]
    have h3 : (texts.drop batchSize).drop batchSize ≠ [] := by
      intro h
      rw [h] at hd2
      simp at hd2
    rw [createBatches_cons_eq _ batchSize h3 (by rw [hbs]; norm_num)]
    have hd3 : ((texts.drop batchSize).drop batchSize).drop batchSize = [] := by
      apply List.eq_nil_of_length_eq_zero
      rw [List.length_drop, hd2, hbs]
    rw [hd3, createBatches_nil]
    simp only [List.map_cons, List.map_nil, List.length_take, h250, hbs]
    rw [hbs] at hd1 hd2
    rw [hd1, hd2]
    norm_num
  · intro hne hall
    unfold generateBatchEmbeddings
    rw [if_neg hne]
    rw [batchGo_all_ok up (createBatches texts batchSize) 0 [] []
      (fun k hk => by simpa using hall k hk)]
    simp

set_option maxRecDepth 8192 in
open VectorSearch LLMPromptBuilder in
/-- C8: the empty-result context is the fixed no-information block and
contains the deflection phrase; a two-result context contains the first
result's displayed source filename strictly before the second's, one
labeled source block per result in the order supplied. -/
theorem c8_build_context :
    (buildOhmnicContext [] = noInfoContext
     ∧ ∃ s t : String, buildOhmnicContext [] = s ++ deflectionPhrase ++ t)
  ∧ (∀ r1 r2 : SearchResult, ∃ s1 s2 s3 : String,
      buildOhmnicContext [r1, r2]
        = s1 ++ displayFilename r1 ++ s2 ++ displayFilename r2 ++ s3) := by
  constructor
  · refine ⟨rfl, "# KNOWLEDGE BASE CONTEXT\n\nNo relevant information found in the knowledge base for this query.\n\n**IMPORTANT:** Only provide information you are certain about. If you cannot answer based on your core knowledge, say: \"", "\"", ?_⟩
    decide
  · intro r1 r2
    refine ⟨contextHeader ++ "## Source " ++ toString (0 + 1) ++ ": ",
      "\n" ++ "**Type:** " ++ displayFileType r1 ++ " | **Updated:** "
        ++ displayUploadDate r1 ++ " | **Relevance:** " ++ fixed1 (r1.similarity * 100)
        ++ "%\n\n" ++ r1.text ++ "\n\n" ++ "---\n\n"
        ++ "## Source " ++ toString (1 + 1) ++ ": ",
      "\n" ++ "**Type:** " ++ displayFileType r2 ++ " | **Updated:** "
        ++ displayUploadDate r2 ++ " | **Relevance:** " ++ fixed1 (r2.similarity * 100)
        ++ "%\n\n" ++ r2.text ++ "\n\n" ++ "---\n\n"
        ++ importantRules, ?_⟩
    show buildOhmnicContext [r1, r2] = _
    rw [buildOhmnicContext]
    rw [if_neg (by simp)]
    simp only [List.enum, List.enumFrom, List.map_cons, List.map_nil, String.join,
      sourceBlock]
    have hsplit : ("\n\n---\n\n## Source " : String)
        = "\n\n---\n\n" ++ "## Source " := by decide
    simp [String.append_assoc]
    rw [hsplit, String.append_assoc]

open VectorSearch in
/-- C2 as amended: at most topK results; reported similarities are
non-increasing (sorted by distance ascending); every result arises from a
store row that passed the tenant, document and threshold filters, the
threshold being tested against the pre-rounding similarity 1 - distance,
and the reported similarity is that value rounded to 4 decimals; and rows
with equal distance are kept in the store's row order (the query has no
secondary sort key), not re-ordered by chunk sequence index. -/
theorem c2_amended (dist : List ℚ → List ℚ → ℚ) (store : List StoreRow)
    (qEmb : List ℚ) (tid : Option String) (topK : Nat) (threshold : ℚ)
    (docIds : Option (List Nat)) :
    (vectorSimilaritySearch dist store qEmb tid topK threshold docIds).length ≤ topK
  ∧ List.Pairwise (fun a b => b.similarity ≤ a.similarity)
      (vectorSimilaritySearch dist store qEmb tid topK threshold docIds)
  ∧ (∀ r ∈ vectorSimilaritySearch dist store qEmb tid topK threshold docIds,
      ∃ row ∈ store, ∃ e, row.embedding = some e
        ∧ tenantMatch row.tenantId tid = true
        ∧ docMatch row.documentId docIds = true
        ∧ threshold ≤ 1 - dist e qEmb
        ∧ r = toResult dist qEmb row
        ∧ r.similarity = toFixed4 (1 - dist e qEmb))
  ∧ (∀ k : ℚ, (rankedCandidates dist store qEmb tid threshold docIds).filter
        (fun c => decide (rowKey dist qEmb c = k))
      = (store.filter (candidateFilter dist qEmb tid docIds threshold)).filter
        (fun c => decide (rowKey dist qEmb c = k))) := by
  refine ⟨?_, ?_, ?_, ?_⟩
  · unfold vectorSimilaritySearch
    rw [List.length_map]
    exact List.length_take_le _ _
  · unfold vectorSimilaritySearch
    have hsorted := @pairwise_sortBy StoreRow
      (fun a b => decide (rowKey dist qEmb a ≤ rowKey dist qEmb b))
      (fun x y z hxy hyz => by
        simp only [decide_eq_true_eq] at hxy hyz ⊢
        exact le_trans hxy hyz)
      (fun x y => by
        simp only [decide_eq_true_eq]
        exact le_total _ _)
      (store.filter (candidateFilter dist qEmb tid docIds threshold))
    have htake := hsorted.sublist (List.take_sublist topK _)
    rw [List.pairwise_map]
    refine htake.imp ?_
    intro a b hab
    simp only [decide_eq_true_eq] at hab
    unfold toResult
    exact toFixed4_mono (by linarith)
  · intro r hr
    rcases vss_mem dist store qEmb tid topK threshold docIds r hr with
      ⟨row, hmem, hcand, hres⟩
    unfold candidateFilter at hcand
    rcases hemb : row.embedding with _ | e
    · rw [hemb] at hcand
      simp at hcand
    · rw [hemb] at hcand
      have hands : (tenantMatch row.tenantId tid = true
          ∧ docMatch row.documentId docIds = true)
          ∧ threshold ≤ 1 - dist e qEmb := by
        simpa using hcand
      refine ⟨row, hmem, e, hemb, hands.1.1, hands.1.2, hands.2, hres, ?_⟩
      rw [hres]
      unfold toResult rowKey
      rw [hemb]
      rfl
  · intro k
    exact filter_sortBy (rowKey dist qEmb) k _

namespace VectorSearch

/-- A stored chunk with sequence index 5, listed first in the store. -/
def tieRowA : StoreRow :=
  { id := 1, documentId := 1, chunkIndex := 5, chunkText := "alpha",
    tokenCount := 1, metadata := "", filename := "a.txt", fileType := "txt",
    uploadDate := "2024-01-01", tags := [], tenantId := "t1",
    embedding := some [1] }

/-- A stored chunk with sequence index 2, listed second in the store. -/
def tieRowB : StoreRow :=
  { id := 2, documentId := 1, chunkIndex := 2, chunkText := "beta",
    tokenCount := 1, metadata := "", filename := "b.txt", fileType := "txt",
    uploadDate := "2024-01-01", tags := [], tenantId := "t1",
    embedding := some [2] }

/-- A distance operator valuing every pair at distance 0 (a perfect tie). -/
def tieDist : List ℚ → List ℚ → ℚ := fun _ _ => 0

/-- A distance operator valuing every pair at 0.44447, so the similarity
0.55553 passes a threshold of 0.55553 but rounds to 0.5555 below it. -/
def roundDist : List ℚ → List ℚ → ℚ := fun _ _ => 44447 / 100000

end VectorSearch

open VectorSearch in
/-- C2 as stated is false on two counts.  With a tied distance, the store
order [chunkIndex 5, chunkIndex 2] is returned unchanged: two results of
equal reported similarity appear with descending, not ascending, chunk
sequence index.  And with threshold 0.55553 and similarity 0.55553, the
row passes the filter but its reported similarity, rounded to 4 decimals,
is 0.5555, strictly below the requested threshold. -/
theorem c2_counterexample :
    ((vectorSimilaritySearch tieDist [tieRowA, tieRowB] [1] (some "t1") 5
        (1 / 2) none).map (fun r => r.chunkIndex) = [5, 2]
     ∧ (vectorSimilaritySearch tieDist [tieRowA, tieRowB] [1] (some "t1") 5
        (1 / 2) none).map (fun r => r.similarity) = [1, 1])
  ∧ ((vectorSimilaritySearch roundDist [tieRowA] [1] (some "t1") 5
        (55553 / 100000) none).map (fun r => r.similarity) = [5555 / 10000]
     ∧ ¬ ((55553 / 100000 : ℚ) ≤ 5555 / 10000)) := by
  have hfA : candidateFilter tieDist [1] (some "t1") none (1 / 2) tieRowA = true := by
    simp only [candidateFilter, tieRowA, tenantMatch, docMatch, tieDist]
    norm_num
  have hfB : candidateFilter tieDist [1] (some "t1") none (1 / 2) tieRowB = true := by
    simp only [candidateFilter, tieRowB, tenantMatch, docMatch, tieDist]
    norm_num
  have hfilter : List.filter (candidateFilter tieDist [1] (some "t1") none (1 / 2))
      [tieRowA, tieRowB] = [tieRowA, tieRowB] := by
    rw [List.filter_cons, if_pos hfA, List.filter_cons, if_pos hfB, List.filter_nil]
  have hle : (fun a b => decide (rowKey tieDist [1] a ≤ rowKey tieDist [1] b))
      tieRowA tieRowB = true := by
    simp [rowKey, tieDist]
  have hsort : sortBy (fun a b => decide (rowKey tieDist [1] a ≤ rowKey tieDist [1] b))
      [tieRowA, tieRowB] = [tieRowA, tieRowB] := by
    simp only [sortBy, insertSorted]
    rw [if_pos hle]
  have hvss : vectorSimilaritySearch tieDist [tieRowA, tieRowB] [1] (some "t1") 5
      (1 / 2) none = [toResult tieDist [1] tieRowA, toResult tieDist [1] tieRowB] := by
    unfold vectorSimilaritySearch rankedCandidates
    rw [hfilter, hsort]
    rfl
  have hone : toFixed4 (1 - (0 : ℚ)) = 1 := by
    unfold toFixed4 jsRound
    rw [if_neg (by norm_num)]
    rw [show ((1 : ℚ) - 0) * 10000 = 10000 by norm_num]
    rw [show round (10000 : ℚ) = 10000 by rw [round_eq]; norm_num]
    norm_num
  refine ⟨⟨?_, ?_⟩, ?_, by norm_num⟩
  · rw [hvss]
    simp [toResult, tieRowA, tieRowB]
  · rw [hvss]
    simp only [List.map_cons, List.map_nil, toResult, rowKey, tieRowA, tieRowB,
      tieDist, Option.getD]
    rw [hone]
  · have hfA2 : candidateFilter roundDist [1] (some "t1") none (55553 / 100000)
        tieRowA = true := by
      simp only [candidateFilter, tieRowA, tenantMatch, docMatch, roundDist]
      norm_num
    have hfilter2 : List.filter (candidateFilter roundDist [1] (some "t1") none
        (55553 / 100000)) [tieRowA] = [tieRowA] := by
      rw [List.filter_cons, if_pos hfA2, List.filter_nil]
    have hvss2 : vectorSimilaritySearch roundDist [tieRowA] [1] (some "t1") 5
        (55553 / 100000) none = [toResult roundDist [1] tieRowA] := by
      unfold vectorSimilaritySearch rankedCandidates
      rw [hfilter2]
      rfl
    rw [hvss2]
    simp only [List.map_cons, List.map_nil, toResult, rowKey, tieRowA, roundDist,
      Option.getD]
    have hval : toFixed4 (1 - (44447 / 100000 : ℚ)) = 5555 / 10000 := by
      unfold toFixed4 jsRound
      rw [if_neg (by norm_num)]
      rw [show ((1 : ℚ) - 44447 / 100000) * 10000 = 55553 / 10 by norm_num]
      rw [show round ((55553 : ℚ) / 10) = 5555 by rw [round_eq]; norm_num]
      norm_num
    rw [hval]

namespace VectorSearch

/-- A row passing the WHERE clause passed its tenant filter. -/
theorem candidateFilter_tenant {dist : List ℚ → List ℚ → ℚ} {qEmb : List ℚ}
    {tid : Option String} {docIds : Option (List Nat)} {threshold : ℚ}
    {row : StoreRow}
    (h : candidateFilter dist qEmb tid docIds threshold row = true) :
    tenantMatch row.tenantId tid = true := by
  unfold candidateFilter at h
  rcases he : row.embedding with _ | e
  · rw [he] at h
    simp at h
  · rw [he] at h
    have h2 : (tenantMatch row.tenantId tid = true
        ∧ docMatch row.documentId docIds = true)
        ∧ threshold ≤ 1 - dist e qEmb := by simpa using h
    exact h2.1.1

/-- A store holding one chunk owned by tenant t1. -/
def c1Row : StoreRow :=
  { id := 7, documentId := 3, chunkIndex := 0, chunkText := "the return policy",
    tokenCount := 4, metadata := "", filename := "policy.txt", fileType := "txt",
    uploadDate := "2024-01-01", tags := [], tenantId := "t1",
    embedding := some (List.replicate 3072 1) }

/-- A distance operator valuing every pair at distance 0. -/
def c1Dist : List ℚ → List ℚ → ℚ := fun _ _ => 0

/-- An upstream embedding capability that always succeeds at once with a
3072-dimension vector. -/
def c1Up : Nat → Except EmbeddingService.EmbError (List (List ℚ)) :=
  fun _ => .ok [List.replicate 3072 1]

end VectorSearch

open VectorSearch EmbeddingService in
/-- C1 as stated is false: with no tenant identifier supplied, search does
not fail with any MissingTenant error; the query embedding upstream call is
still attempted, and the search returns an ordinary success whose result
list is empty because the tenant equality filter matches no row. -/
theorem c1_counterexample :
    (search c1Dist [c1Row] c1Up 0 5 true "return policy" none
        SearchOptions.empty).fst
      = .ok { results := [], query := "return policy", count := 0,
              responseTimeMs := 5 }
  ∧ Effect.embedUpstream
      ∈ (search c1Dist [c1Row] c1Up 0 5 true "return policy" none
          SearchOptions.empty).snd := by
  have hretry : (retryWithBackoff isRetryableError c1Up maxRetries).result
      = some (.ok [List.replicate 3072 1]) := by
    rw [show maxRetries = 3 from rfl, retryWithBackoff_three]
    rfl
  have hemb : generateEmbedding "return policy" c1Up
      = .ok (List.replicate 3072 1) := by
    unfold generateEmbedding
    rw [if_neg (by decide), hretry]
    dsimp only
    rw [if_neg (by rw [List.length_replicate]; simp [dimensions])]
  have hcf : candidateFilter c1Dist (List.replicate 3072 1) none none
      similarityThreshold c1Row = false := rfl
  have hvss : vectorSimilaritySearch c1Dist [c1Row] (List.replicate 3072 1) none
      defaultTopK similarityThreshold none = [] := by
    unfold vectorSimilaritySearch rankedCandidates
    rw [List.filter_cons, hcf]
    simp only [Bool.false_eq_true, if_false, List.filter_nil]
    rfl
  constructor
  · unfold search
    rw [hemb]
    dsimp only [SearchOptions.empty, Option.getD]
    rw [hvss]
    rfl
  · unfold search
    rw [hemb]
    simp

open VectorSearch in
/-- C1 as amended: search performs no tenant-presence validation and raises
no MissingTenant error; instead, every chunk a successful search returns
comes from a store row whose tenant is exactly the supplied tenant, and
when no tenant identifier is supplied, the tenant equality filter admits no
row, so the result list is empty.  There is thus still no mode of search
returning chunks across tenants. -/
theorem c1_amended (dist : List ℚ → List ℚ → ℚ) (store : List StoreRow)
    (f : Nat → Except EmbeddingService.EmbError (List (List ℚ)))
    (startTime endTime : Nat) (logOk : Bool) (query : String)
    (tenantId : Option String) (opts : SearchOptions) (resp : SearchResponse)
    (h : (search dist store f startTime endTime logOk query tenantId opts).fst
      = .ok resp) :
    (tenantId = none → resp.results = [])
  ∧ (∀ r ∈ resp.results, ∃ row ∈ store,
      tenantId = some row.tenantId ∧ r.chunkId = row.id) := by
  rcases hge : EmbeddingService.generateEmbedding query f with e | qEmb
  · unfold search at h
    rw [hge] at h
    simp at h
  · unfold search at h
    rw [hge] at h
    dsimp only at h
    simp only [Except.ok.injEq] at h
    have hres : resp.results
        = vectorSimilaritySearch dist store qEmb tenantId
            (opts.topK.getD defaultTopK)
            (opts.similarityThreshold.getD similarityThreshold)
            (opts.documentIds.getD none) := by
      rw [← h]
    have hmem : ∀ r ∈ resp.results, ∃ row ∈ store,
        tenantId = some row.tenantId ∧ r.chunkId = row.id := by
      intro r hr
      rw [hres] at hr
      rcases vss_mem dist store qEmb tenantId _ _ _ r hr with
        ⟨row, hrow, hcand, hback⟩
      refine ⟨row, hrow, tenantMatch_eq (candidateFilter_tenant hcand), ?_⟩
      rw [hback]
      rfl
    refine ⟨?_, hmem⟩
    intro htid
    apply List.eq_nil_iff_forall_not_mem.mpr
    intro r hr
    rcases hmem r hr with ⟨row, _, htid2, _⟩
    rw [htid] at htid2
    exact Option.noConfusion htid2

namespace VectorSearch

/-- The empty response the fixture search run returns. -/
def c1Resp : SearchResponse :=
  { results := [], query := "return policy", count := 0, responseTimeMs := 5 }

end VectorSearch

open VectorSearch in
/-- C1 witness: the amended statement applied to the one-row store with a
supplied tenant that matches no row. -/
theorem c1_amended_witness :
    ((some "t2" : Option String) = none → c1Resp.results = [])
  ∧ (∀ r ∈ c1Resp.results,
      ∃ row ∈ [c1Row], (some "t2" : Option String) = some row.tenantId
        ∧ r.chunkId = row.id) := by
  refine c1_amended c1Dist [c1Row] c1Up 0 5 true "return policy" (some "t2")
    SearchOptions.empty _ ?_
  have hretry : (EmbeddingService.retryWithBackoff EmbeddingService.isRetryableError
      c1Up EmbeddingService.maxRetries).result
      = some (.ok [List.replicate 3072 1]) := by
    rw [show EmbeddingService.maxRetries = 3 from rfl,
      EmbeddingService.retryWithBackoff_three]
    rfl
  have hemb : EmbeddingService.generateEmbedding "return policy" c1Up
      = .ok (List.replicate 3072 1) := by
    unfold EmbeddingService.generateEmbedding
    rw [if_neg (by decide), hretry]
    dsimp only
    rw [if_neg (by rw [List.length_replicate]; simp [EmbeddingService.dimensions])]
  have hcf : candidateFilter c1Dist (List.replicate 3072 1) (some "t2") none
      similarityThreshold c1Row = false := rfl
  have hvss : vectorSimilaritySearch c1Dist [c1Row] (List.replicate 3072 1)
      (some "t2") defaultTopK similarityThreshold none = [] := by
    unfold vectorSimilaritySearch rankedCandidates
    rw [List.filter_cons, hcf]
    simp only [Bool.false_eq_true, if_false, List.filter_nil]
    rfl
  unfold search
  rw [hemb]
  dsimp only [SearchOptions.empty, Option.getD]
  rw [hvss]
  rfl
